import Mathlib

set_option maxRecDepth 2048

/-!
Verification development for the `git_mcp_server.py` build-orchestration
endpoint.  Paths are modelled as lists of components (the components of an
absolute path, filesystem root = `[]`); `pathlib.Path.resolve` is modelled as
lexical canonicalisation (`.`/`..`/empty-segment collapsing and absolute-path
override) over a symlink-free filesystem.  Machine effects (the filesystem,
`os.getenv`, `shutil.which`, `subprocess.run`) are passed in explicitly.
-/

/-- Splits a raw path string on the separator character, mirroring how the
segments of a POSIX-style path string are read (accumulator holds the current
segment reversed). -/
def splitSegsC : List Char → List Char → List (List Char)
  | [], acc => [acc.reverse]
  | c :: cs, acc =>
    if c = '/' then acc.reverse :: splitSegsC cs []
    else splitSegsC cs (c :: acc)

/-- The segments of a relative-path string. -/
def splitPath (rel : String) : List String :=
  (splitSegsC rel.data []).map (fun l => String.mk l)

/-- Canonicalisation stack: empty and `.` segments are skipped, `..` pops one
component (a no-op at the filesystem root, as in `Path("/..").resolve()`),
anything else is pushed.  The accumulator holds the path reversed. -/
def normalizeSegs : List String → List String → List String
  | [], acc => acc.reverse
  | s :: rest, acc =>
    if s = "" || s = "." then normalizeSegs rest acc
    else if s = ".." then normalizeSegs rest acc.tail
    else normalizeSegs rest (s :: acc)

/-- Model of `(root / rel).resolve()` for an already-canonical absolute `root`:
an absolute `rel` (leading separator) overrides `root` entirely, then the
segments are canonicalised lexically (symlink-free model of the OS path
canonicalisation). -/
def resolvePath (root : List String) (rel : String) : List String :=
  let start := if rel.data.head? = some '/' then ([] : List String) else root
  normalizeSegs (splitPath rel) start.reverse

/-- Structured model of the `HTTPException`s raised by the server (each
constructor carries the data interpolated into the corresponding `detail`
message in the source). -/
inductive HErr where
  /-- 400 — `Invalid project_path (path traversal): {rel}` in `_safe_join`. -/
  | pathTraversal (rel : String)
  /-- 500 — no `gradlew`/`gradlew.bat` and no system `gradle`. -/
  | gradleNotFound
  /-- 500 — `MAVEN_CMD is set but file not found: {maven_cmd}`. -/
  | mavenCmdSetButMissing (maven_cmd : String)
  /-- 500 — `Maven not found in PATH.` -/
  | mavenNotFound
  /-- 400 — `Unsafe extra arg rejected: {arg}. Allowed prefixes: {allowed}`. -/
  | unsafeArgument (arg : String) (allowed : List String)
  /-- 400 — `Unsupported tool/goal`. -/
  | unsupportedToolGoal
  /-- 404 — `Project path not found: {cwd}`. -/
  | projectPathNotFound (cwd : List String)
  /-- 400 — `pom.xml not found in {cwd}`. -/
  | pomNotFound (cwd : List String)
  /-- 400 — `Invalid path (path traversal)` in `write_file`. -/
  | writeTraversal
  /-- 409 — `File already exists: {target}` in `write_file`. -/
  | fileAlreadyExists (target : List String)
  /-- 500 — uncaught `ValueError` from `Path.relative_to` in `list_files`. -/
  | valueError
deriving DecidableEq

/-- The `status_code` each modelled `HTTPException` is raised with. -/
def HErr.status_code : HErr → Nat
  | .pathTraversal _ => 400
  | .gradleNotFound => 500
  | .mavenCmdSetButMissing _ => 500
  | .mavenNotFound => 500
  | .unsafeArgument _ _ => 400
  | .unsupportedToolGoal => 400
  | .projectPathNotFound _ => 404
  | .pomNotFound _ => 400
  | .writeTraversal => 400
  | .fileAlreadyExists _ => 409
  | .valueError => 500

/-- `root in target.parents`: `pathlib`'s `parents` are the proper ancestors,
i.e. the proper component-wise ancestors of `target`. -/
def inParents (root target : List String) : Bool :=
  root.isPrefixOf target && !(root == target)

/-- `_safe_join(root, rel)`: resolve `root / rel` and reject the result unless
it is `root` itself or a descendant of `root`
(`if root not in target.parents and target != root: raise 400`). -/
def _safe_join (root : List String) (rel : String) : Except HErr (List String) :=
  let target := resolvePath root rel
  if !(inParents root target) && !(target == root) then
    .error (.pathTraversal rel)
  else
    .ok target

/-- Explicit filesystem state: existing regular files (keyed by canonical
absolute component path, with content), existing directories, and a raw-string
existence test used only for the `Path(maven_cmd).exists()` check on the
`MAVEN_CMD` override (whose string is used verbatim, not resolved against the
repo root). -/
structure FS where
  files : List (List String × String)
  dirs : List (List String)
  strExists : String → Bool

/-- Process environment: `os.getenv` and `shutil.which`. -/
structure SysEnv where
  getenv : String → Option String
  which : String → Option String

/-- `Path.exists()` on a canonical component path: true for files and
directories alike. -/
def fsExists (fs : FS) (p : List String) : Bool :=
  fs.files.any (fun e => e.1 == p) || fs.dirs.contains p

/-- `Path.read_text()`, as a lookup of the canonical component path. -/
def fileContent (fs : FS) (p : List String) : Option String :=
  (fs.files.find? (fun e => e.1 == p)).map (fun e => e.2)

/-- `SAFE_EXTRA_ARGS_PREFIXES` from the source. -/
def SAFE_EXTRA_ARGS_PREFIXES : List String :=
  ["-D", "--no-daemon", "--stacktrace", "--info", "--debug"]

/-- `a.startswith(SAFE_EXTRA_ARGS_PREFIXES)` (Python `startswith` with a tuple
is true when any element is a leading substring of `a`). -/
def startsWithAnySafe (a : String) : Bool :=
  SAFE_EXTRA_ARGS_PREFIXES.any (fun p => p.data.isPrefixOf a.data)

/-- The first argument of the list rejected by the `for` loop of
`_validate_extra_args`, if any. -/
def firstUnsafeArg (args : List String) : Option String :=
  args.find? (fun a => !startsWithAnySafe a)

/-- `_validate_extra_args`: raises a 400 `UnsafeArgument` error naming the
first offending argument and the allow-list, else returns the list
unchanged. -/
def _validate_extra_args (args : List String) : Except HErr (List String) :=
  match firstUnsafeArg args with
  | some a => .error (.unsafeArgument a SAFE_EXTRA_ARGS_PREFIXES)
  | none => .ok args

/-- `BuildTool = Literal["maven", "gradle"]`. -/
inductive BuildTool where
  | maven
  | gradle
deriving DecidableEq

/-- `BuildGoal = Literal["test-compile", "test", "compile"]`
(`testCompile` stands for the string `"test-compile"`). -/
inductive BuildGoal where
  | testCompile
  | test
  | compile
deriving DecidableEq

/-- `_pick_gradle_executable`: project wrapper `gradlew`, then `gradlew.bat`,
then a system `gradle` from the search path, else a 500 error. -/
def _pick_gradle_executable (fs : FS) (env : SysEnv) (cwd : List String) :
    Except HErr (List String) :=
  if fsExists fs (cwd ++ ["gradlew"]) then .ok ["./gradlew"]
  else if fsExists fs (cwd ++ ["gradlew.bat"]) then .ok ["gradlew.bat"]
  else
    match env.which "gradle" with
    | some _ => .ok ["gradle"]
    | none => .error .gradleNotFound

/-- `_pick_maven_executable`: a truthy `MAVEN_CMD` environment value is used
verbatim when the file it names exists and is a 500 error otherwise; with no
(or an empty) `MAVEN_CMD`, a system `mvn` from the search path, else a 500
error. -/
def _pick_maven_executable (fs : FS) (env : SysEnv) : Except HErr (List String) :=
  match env.getenv "MAVEN_CMD" with
  | some mc =>
    if mc = "" then
      match env.which "mvn" with
      | some _ => .ok ["mvn"]
      | none => .error .mavenNotFound
    else if fs.strExists mc then .ok [mc]
    else .error (.mavenCmdSetButMissing mc)
  | none =>
    match env.which "mvn" with
    | some _ => .ok ["mvn"]
    | none => .error .mavenNotFound

/-- `_build_command`: validates the extra args first, then selects the
executable (for maven: `mvnw` in the project folder, then `mvnw.cmd`, then
`_pick_maven_executable`), then appends the goal subcommand and the validated
extra args.  The `Unsupported tool/goal` fallthrough of the source is
unreachable here because the modelled enums are exact. -/
def _build_command (fs : FS) (env : SysEnv) (tool : BuildTool) (goal : BuildGoal)
    (cwd : List String) (extra_args : List String) : Except HErr (List String) :=
  match _validate_extra_args extra_args with
  | .error e => .error e
  | .ok extra_args =>
    match tool with
    | .maven =>
      let baseE :=
        if fsExists fs (cwd ++ ["mvnw"]) then Except.ok ["./mvnw"]
        else if fsExists fs (cwd ++ ["mvnw.cmd"]) then Except.ok ["mvnw.cmd"]
        else _pick_maven_executable fs env
      match baseE with
      | .error e => .error e
      | .ok base =>
        let common := ["-e"]
        match goal with
        | .testCompile => .ok (base ++ common ++ ["test-compile"] ++ extra_args)
        | .test => .ok (base ++ common ++ ["test"] ++ extra_args)
        | .compile => .ok (base ++ common ++ ["compile"] ++ extra_args)
    | .gradle =>
      match _pick_gradle_executable fs env cwd with
      | .error e => .error e
      | .ok base =>
        match goal with
        | .testCompile => .ok (base ++ ["testClasses"] ++ extra_args)
        | .test => .ok (base ++ ["test"] ++ extra_args)
        | .compile => .ok (base ++ ["classes"] ++ extra_args)

/-- `text[-max_chars:]` on the character list of a Python string (the
`if not text: return ""` guard of `_tail` coincides with the slice on the
empty string; the callers always pass a positive bound). -/
def pyTailC (l : List Char) (k : Nat) : List Char :=
  l.drop (l.length - k)

/-- `_tail(text, max_chars)`. -/
def _tail (text : String) (max_chars : Nat) : String :=
  String.mk (pyTailC text.data max_chars)

/-- The line-boundary characters of Python `str.splitlines` (`\r\n` is
handled as a single boundary by `splitLinesC`). -/
def lineBreakChars : List Char :=
  ['\n', '\r', '\u000B', '\u000C', '\u001C', '\u001D', '\u001E',
   '\u0085', ' ', ' ']

/-- Is the character a `splitlines` line boundary? -/
def isLineBreakC (c : Char) : Bool := lineBreakChars.contains c

/-- Whitespace characters stripped by Python `str.strip()` (every `splitlines`
boundary is also whitespace). -/
def pyWsChars : List Char :=
  [' ', '\t', '\u001F', ' ', ' ', ' ', ' ', '　'] ++
    lineBreakChars

/-- Is the character Python whitespace (including the U+2000 to U+200A range)? -/
def isPyWs (c : Char) : Bool :=
  pyWsChars.contains c || (0x2000 ≤ c.toNat && c.toNat ≤ 0x200A)

/-- `str.strip()` on a character list. -/
def stripC (l : List Char) : List Char :=
  ((l.dropWhile isPyWs).reverse.dropWhile isPyWs).reverse

/-- `str.splitlines()` on a character list: split at every line boundary,
treating `\r\n` as one boundary and discarding a trailing boundary (so the
empty string yields no lines and no trailing empty line is produced by a
final terminator). -/
def splitLinesC : List Char → List (List Char)
  | [] => []
  | '\r' :: '\n' :: cs => [] :: splitLinesC cs
  | c :: cs =>
    if isLineBreakC c then
      [] :: splitLinesC cs
    else
      match splitLinesC cs with
      | [] => [[c]]
      | l :: ls => (c :: l) :: ls

/-- `"\n".join(lines)` on character lists. -/
def joinNlC : List (List Char) → List Char
  | [] => []
  | [l] => l
  | l :: ls => l ++ '\n' :: joinNlC ls

/-- `lines[-n:]`. -/
def lastNC (L : List (List Char)) (n : Nat) : List (List Char) :=
  L.drop (L.length - n)

/-- `_normalize_maven_output(stdout, stderr)`: the combined error source is
the stripped stderr when non-empty, else the stripped stdout; the summary is
the last 200 lines of it; the returned triple is the 20000-character tails of
the raw streams and the 8000-character tail of the summary. -/
def _normalize_maven_output (stdout stderr : String) : String × String × String :=
  let combined := if stripC stderr.data ≠ [] then stripC stderr.data else stripC stdout.data
  let summary := if combined ≠ [] then joinNlC (lastNC (splitLinesC combined) 200) else []
  (_tail stdout 20000, _tail stderr 20000, _tail (String.mk summary) 8000)

/-- Outcome of `subprocess.run`: normal completion with an exit code and the
two captured streams, or `TimeoutExpired` with the optional partial
captures. -/
inductive ProcOutcome where
  | completed (returncode : Int) (stdout stderr : String)
  | timedOut (stdout stderr : Option String)
deriving DecidableEq

/-- The result dictionary built by `_run_command`. -/
structure RunResult where
  ok : Bool
  returncode : Int
  command : List String
  cwd : List String
  duration_ms : Nat
  stdout : String
  stderr : String
  error_summary : String
deriving DecidableEq

/-- Python `opt or default` for an optional string (`None` and `""` are both
falsy). -/
def pyOrOpt (o : Option String) (d : String) : String :=
  match o with
  | none => d
  | some s => if s = "" then d else s

/-- Python `s or default` for a string. -/
def pyOrStr (s d : String) : String :=
  if s = "" then d else s

/-- `_run_command(cmd, cwd, timeout_seconds)` given the outcome of the spawned
process and the measured wall-clock duration.  On completion: `ok` is
`returncode == 0` and `error_summary` is empty on success, else the
normalised summary.  On `TimeoutExpired`: exit code 124, captured partial
output preserved (`e.stdout or ""`, `e.stderr or "TIMEOUT"`), and
`summary or "TIMEOUT"` as the summary. -/
def _run_command (cmd : List String) (cwd : List String) (timeout_seconds : Nat)
    (outcome : ProcOutcome) (duration_ms : Nat) : RunResult :=
  match outcome with
  | .completed returncode pstdout pstderr =>
    let r := _normalize_maven_output pstdout pstderr
    { ok := returncode == 0
      returncode := returncode
      command := cmd
      cwd := cwd
      duration_ms := duration_ms
      stdout := r.1
      stderr := r.2.1
      error_summary := if returncode == 0 then "" else r.2.2 }
  | .timedOut estdout estderr =>
    let r := _normalize_maven_output (pyOrOpt estdout "") (pyOrOpt estderr "TIMEOUT")
    { ok := false
      returncode := 124
      command := cmd
      cwd := cwd
      duration_ms := duration_ms
      stdout := r.1
      stderr := r.2.1
      error_summary := pyOrStr r.2.2 "TIMEOUT" }

/-- The body of a `/git-mcp/compile` request. -/
structure CompileRequest where
  tool : BuildTool
  goal : BuildGoal
  project_path : String
  timeout_seconds : Nat
  extra_args : List String

/-- `compile_project`: resolve the project path inside the root, check the
directory exists (404) and, for maven, that `pom.xml` exists in it (400),
build the command, spawn it (`spawn` abstracts `subprocess.run`, yielding the
outcome and the measured duration) and return the structured result. -/
def compile_project (fs : FS) (env : SysEnv) (root : List String)
    (spawn : List String → List String → Nat → ProcOutcome × Nat)
    (req : CompileRequest) : Except HErr RunResult :=
  match _safe_join root req.project_path with
  | .error e => .error e
  | .ok cwd =>
    if !(fsExists fs cwd) then
      .error (.projectPathNotFound cwd)
    else if req.tool == BuildTool.maven && !(fsExists fs (cwd ++ ["pom.xml"])) then
      .error (.pomNotFound cwd)
    else
      match _build_command fs env req.tool req.goal cwd req.extra_args with
      | .error e => .error e
      | .ok cmd =>
        let r := spawn cmd cwd req.timeout_seconds
        .ok (_run_command cmd cwd req.timeout_seconds r.1 r.2)

/-- Response of `/git-mcp/file`: the file content, or the in-body
`{"error": "File not found: ..."}` message (an HTTP 200 body, not an
exception), or the exception raised by `read_text` on an existing non-file
path. -/
inductive GetFileResp where
  | content (s : String)
  | errorMsg (file_path : List String)
  | readError (file_path : List String)
deriving DecidableEq

/-- `get_file`: joins `REPO_ROOT / req.path` with no canonicalisation call and
no containment check; existence and reading go through the OS lookup, which
canonicalises the dotted segments (modelled by `resolvePath`). -/
def get_file (fs : FS) (root : List String) (path : String) : GetFileResp :=
  let file_path := resolvePath root path
  if fsExists fs file_path then
    match fileContent fs file_path with
    | some c => .content c
    | none => .readError file_path
  else .errorMsg file_path

/-- The last component of a path (the file or directory name). -/
def lastComponent (p : List String) : String := p.getLastD ""

/-- Does the name of `p` match the glob pattern `*{ext}` (a literal `ext`
suffix)? -/
def matchesExt (ext : String) (p : List String) : Bool :=
  ext.data.isSuffixOf (lastComponent p).data

/-- `REPO_ROOT / req.base_path` as `pathlib` computes it: a purely lexical
join with no canonicalisation — path parsing drops empty and `.` segments
but keeps `..` segments as ordinary components, and an absolute right
operand replaces the root. -/
def joinLex (root : List String) (rel : String) : List String :=
  let segs := (splitPath rel).filter (fun s => !(s == "") && !(s == "."))
  if rel.data.head? = some '/' then segs else root ++ segs

/-- OS-level canonicalisation of an absolute component path which may still
contain `..` segments (the lookup the kernel performs for `exists` and
`rglob`), symlink-free as everywhere in this model. -/
def normalizeComponents (p : List String) : List String :=
  normalizeSegs p []

/-- `base.rglob(f"*{ext}")` on the uncanonicalised lexical `base`: the
entries found are those whose canonical path lies strictly below the
canonical base and whose name ends with `ext`, but each result is yielded as
the lexical `base` followed by the relative suffix — the `..` segments of
`base` stay in the yielded paths. -/
def rglobLex (fs : FS) (base : List String) (ext : String) : List (List String) :=
  let nbase := normalizeComponents base
  ((fs.files.map (fun e => e.1) ++ fs.dirs).filter
    (fun e => nbase.isPrefixOf e && !(e == nbase) && matchesExt ext e)).map
    (fun e => base ++ e.drop nbase.length)

/-- `list_files`: joins `REPO_ROOT / req.base_path` lexically with no
containment check; returns `{"files": []}` when the base does not exist (the
OS lookup canonicalises), else lists every match relative to the root.
`Path.relative_to` is purely lexical on the uncanonicalised match, so it
succeeds — serving the escaped listing with HTTP 200 — whenever the root
components lexically lead the match (always the case for a relative base
path), and raises the uncaught 500 `ValueError` otherwise (only reachable
through an absolute base path outside the root). -/
def list_files (fs : FS) (root : List String) (base_path ext : String) :
    Except HErr (List String) :=
  let base := joinLex root base_path
  if fsExists fs (normalizeComponents base) then
    let matched := rglobLex fs base ext
    if matched.all (fun p => root.isPrefixOf p) then
      .ok (matched.map (fun p => String.intercalate "/" (p.drop root.length)))
    else
      .error .valueError
  else
    .ok []

/-- The body of a `/git-mcp/write-file` request. -/
structure WriteFileRequest where
  repo : String
  path : String
  content : String
  overwrite : Bool

/-- The success body of `/git-mcp/write-file`. -/
structure WriteFileResp where
  ok : Bool
  path : String
deriving DecidableEq

/-- All ancestors-or-self of a directory path (what
`mkdir(parents=True, exist_ok=True)` guarantees to exist afterwards). -/
def pathAncestors (p : List String) : List (List String) :=
  (List.range (p.length + 1)).map (fun k => p.take k)

/-- `target.parent.mkdir(parents=True, exist_ok=True)`. -/
def mkdirParents (fs : FS) (parent : List String) : FS :=
  { fs with dirs := pathAncestors parent ++ fs.dirs }

/-- `target.write_text(content)`. -/
def writeText (fs : FS) (p : List String) (c : String) : FS :=
  { fs with files := (p, c) :: fs.files.filter (fun e => !(e.1 == p)) }

/-- `write_file`: resolve the target, reject escapes from the root (400),
reject an existing target when `overwrite` is false (409), else create the
missing parent directories and write the content.  The filesystem state is
returned alongside the response; the two error paths return it untouched,
exactly as the source raises before any mutation. -/
def write_file (fs : FS) (root : List String) (req : WriteFileRequest) :
    FS × Except HErr WriteFileResp :=
  let target := resolvePath root req.path
  if !(inParents root target) && !(target == root) then
    (fs, .error .writeTraversal)
  else if fsExists fs target && !req.overwrite then
    (fs, .error (.fileAlreadyExists target))
  else
    let fs1 := mkdirParents fs target.dropLast
    let fs2 := writeText fs1 target req.content
    (fs2, .ok { ok := true, path := String.intercalate "/" (target.drop root.length) })

/-- The goal argument `_build_command` passes for each maven goal. -/
def mavenGoalArg : BuildGoal → String
  | .testCompile => "test-compile"
  | .test => "test"
  | .compile => "compile"

/-- Python truthiness of an optional string (`None` and `""` are falsy). -/
def pyTruthy (o : Option String) : Bool :=
  match o with
  | none => false
  | some s => !(s == "")

theorem safe_join_eq (root : List String) (rel : String) :
    _safe_join root rel =
      if root <+: resolvePath root rel then .ok (resolvePath root rel)
      else .error (.pathTraversal rel) := by
  unfold _safe_join inParents
  by_cases h : root <+: resolvePath root rel
  · by_cases he : resolvePath root rel = root
    · simp [h, he]
    · have he' : ¬ root = resolvePath root rel := fun hh => he hh.symm
      simp [h, he, he', List.isPrefixOf_iff_prefix]
  · have hne : resolvePath root rel ≠ root := by
      intro he
      apply h
      rw [he]
    simp [h, hne, List.isPrefixOf_iff_prefix]

/-- C1: `_safe_join root rel` fails with the `PathTraversal` client error
(HTTP 400) exactly when the canonical resolution of `root/rel` is neither
`root` itself nor a descendant of `root` (i.e. `root` is not a component-wise
ancestor-or-self of the resolved path); otherwise it returns that canonical
absolute path. -/
theorem safe_join_traversal_boundary (root : List String) (rel : String) :
    (¬ root <+: resolvePath root rel →
      _safe_join root rel = .error (.pathTraversal rel) ∧
        (HErr.pathTraversal rel).status_code = 400)
    ∧ (root <+: resolvePath root rel →
      _safe_join root rel = .ok (resolvePath root rel)) := by
  constructor
  · intro h
    rw [safe_join_eq]
    simp [h, HErr.status_code]
  · intro h
    rw [safe_join_eq]
    simp [h]

/-- Witness for C1: the `..`-escape `"../../etc"` below the root `/a/b`
resolves to `/etc`, outside the root, and is rejected with a 400
`PathTraversal` error, while `"sub/m"` resolves inside the root and is
returned canonicalised. -/
theorem safe_join_traversal_boundary_witness :
    (_safe_join ["a", "b"] "../../etc" = .error (.pathTraversal "../../etc") ∧
      (HErr.pathTraversal "../../etc").status_code = 400)
    ∧ _safe_join ["a", "b"] "sub/./x/../m" = .ok ["a", "b", "sub", "m"] := by
  refine ⟨(safe_join_traversal_boundary ["a", "b"] "../../etc").1 (by decide), ?_⟩
  have hres : resolvePath ["a", "b"] "sub/./x/../m" = ["a", "b", "sub", "m"] := by
    decide
  have h := (safe_join_traversal_boundary ["a", "b"] "sub/./x/../m").2 (by decide)
  rw [hres] at h
  exact h

/-- C2: an extra-args list containing an argument that starts with none of the
allowed prefixes makes validation fail with the 400 `UnsafeArgument` error
naming the offending argument and the allow-list; `_build_command` fails the
same way before any executable is selected (for every filesystem and
environment), and on this path `compile_project` never spawns a process (its
result does not depend on the spawner); a list whose every element starts
with an allowed prefix passes through validation unchanged. -/
theorem unsafe_extra_args_rejected (extra : List String) :
    (∀ a, firstUnsafeArg extra = some a →
      _validate_extra_args extra =
        .error (.unsafeArgument a SAFE_EXTRA_ARGS_PREFIXES)
      ∧ (HErr.unsafeArgument a SAFE_EXTRA_ARGS_PREFIXES).status_code = 400
      ∧ (∀ fs env tool goal cwd,
          _build_command fs env tool goal cwd extra =
            .error (.unsafeArgument a SAFE_EXTRA_ARGS_PREFIXES))
      ∧ (∀ fs env root req spawn spawn', req.extra_args = extra →
          compile_project fs env root spawn req =
            compile_project fs env root spawn' req))
    ∧ (firstUnsafeArg extra = none ↔ ∀ a ∈ extra, startsWithAnySafe a = true)
    ∧ (firstUnsafeArg extra = none → _validate_extra_args extra = .ok extra) := by
  refine ⟨?_, ?_, ?_⟩
  · intro a h
    have hv : _validate_extra_args extra =
        .error (.unsafeArgument a SAFE_EXTRA_ARGS_PREFIXES) := by
      simp [_validate_extra_args, h]
    have hb : ∀ fs env tool goal cwd,
        _build_command fs env tool goal cwd extra =
          .error (.unsafeArgument a SAFE_EXTRA_ARGS_PREFIXES) := by
      intro fs env tool goal cwd
      simp [_build_command, hv]
    refine ⟨hv, rfl, hb, ?_⟩
    intro fs env root req spawn spawn' hre
    unfold compile_project
    cases _safe_join root req.project_path with
    | error e => rfl
    | ok cwd =>
      have hb' : _build_command fs env req.tool req.goal cwd req.extra_args =
          .error (.unsafeArgument a SAFE_EXTRA_ARGS_PREFIXES) := by
        rw [hre]; exact hb fs env req.tool req.goal cwd
      simp [hb']
  · simp [firstUnsafeArg, List.find?_eq_none]
  · intro h
    simp [_validate_extra_args, h]

/-- Witness for C2: `"--unsafe-flag"` is rejected by validation and by
`_build_command`, with the offending argument and allow-list in the 400
error, the compile endpoint's result does not depend on the spawner, and an
all-safe list passes through unchanged. -/
theorem unsafe_extra_args_rejected_witness :
    (_validate_extra_args ["--unsafe-flag"] =
      .error (.unsafeArgument "--unsafe-flag" SAFE_EXTRA_ARGS_PREFIXES)
    ∧ (HErr.unsafeArgument "--unsafe-flag" SAFE_EXTRA_ARGS_PREFIXES).status_code = 400
    ∧ _build_command ⟨[], [], fun _ => false⟩ ⟨fun _ => none, fun _ => none⟩
        .gradle .test ["r"] ["--unsafe-flag"] =
        .error (.unsafeArgument "--unsafe-flag" SAFE_EXTRA_ARGS_PREFIXES)
    ∧ compile_project ⟨[], [["r"]], fun _ => false⟩ ⟨fun _ => none, fun _ => none⟩
        ["r"] (fun _ _ _ => (.completed 0 "" "", 0))
        ⟨.gradle, .test, ".", 300, ["--unsafe-flag"]⟩ =
      compile_project ⟨[], [["r"]], fun _ => false⟩ ⟨fun _ => none, fun _ => none⟩
        ["r"] (fun _ _ _ => (.completed 1 "boom" "bang", 7))
        ⟨.gradle, .test, ".", 300, ["--unsafe-flag"]⟩)
    ∧ _validate_extra_args ["-DskipTests=true", "--info"] =
      .ok ["-DskipTests=true", "--info"] := by
  have h := unsafe_extra_args_rejected ["--unsafe-flag"]
  have h1 := h.1 "--unsafe-flag" (by decide)
  refine ⟨⟨h1.1, h1.2.1, h1.2.2.1 _ _ _ _ _, h1.2.2.2 _ _ _ _ _ _ rfl⟩, ?_⟩
  exact (unsafe_extra_args_rejected ["-DskipTests=true", "--info"]).2.2 (by decide)

/-- C4: with tool gradle, `_build_command` maps goal compile to the `classes`
subcommand, goal test-compile to `testClasses` and goal test to `test`
(the first two are never swapped), and appends the validated extra args in
caller-supplied order immediately after the subcommand. -/
theorem gradle_goal_mapping (fs : FS) (env : SysEnv) (cwd : List String)
    (extra base : List String)
    (hargs : firstUnsafeArg extra = none)
    (hbase : _pick_gradle_executable fs env cwd = .ok base) :
    _build_command fs env .gradle .compile cwd extra = .ok (base ++ ["classes"] ++ extra)
    ∧ _build_command fs env .gradle .testCompile cwd extra =
        .ok (base ++ ["testClasses"] ++ extra)
    ∧ _build_command fs env .gradle .test cwd extra = .ok (base ++ ["test"] ++ extra) := by
  have hv : _validate_extra_args extra = .ok extra := by
    simp [_validate_extra_args, hargs]
  refine ⟨?_, ?_, ?_⟩ <;> simp [_build_command, hv, hbase]

/-- Witness for C4: with a `gradlew` wrapper present and the safe extra args
`["-Dx", "--info"]`, the three gradle goals build the expected vectors with
the extra args right after the subcommand. -/
theorem gradle_goal_mapping_witness :
    _build_command ⟨[(["r", "gradlew"], "")], [], fun _ => false⟩
        ⟨fun _ => none, fun _ => none⟩ .gradle .compile ["r"] ["-Dx", "--info"] =
      .ok ["./gradlew", "classes", "-Dx", "--info"]
    ∧ _build_command ⟨[(["r", "gradlew"], "")], [], fun _ => false⟩
        ⟨fun _ => none, fun _ => none⟩ .gradle .testCompile ["r"] ["-Dx", "--info"] =
      .ok ["./gradlew", "testClasses", "-Dx", "--info"]
    ∧ _build_command ⟨[(["r", "gradlew"], "")], [], fun _ => false⟩
        ⟨fun _ => none, fun _ => none⟩ .gradle .test ["r"] ["-Dx", "--info"] =
      .ok ["./gradlew", "test", "-Dx", "--info"] := by
  have h := gradle_goal_mapping ⟨[(["r", "gradlew"], "")], [], fun _ => false⟩
    ⟨fun _ => none, fun _ => none⟩ ["r"] ["-Dx", "--info"] ["./gradlew"]
    (by decide) (by rfl)
  exact ⟨h.1, h.2.1, h.2.2⟩

/-- C5: for tool maven the first element of the built command follows the
strict preference order: project-local `mvnw` wrapper in the working
directory, then the Windows variant `mvnw.cmd`, then a truthy `MAVEN_CMD`
override (a 500 error when the override is set but the file is missing), then
a `mvn` binary from the system search path, and a 500 `ToolNotFound` error
when nothing is viable; when a wrapper is present the first element is the
wrapper, never a system binary. -/
theorem maven_executable_preference (fs : FS) (env : SysEnv) (cwd : List String)
    (goal : BuildGoal) (extra : List String)
    (hargs : firstUnsafeArg extra = none) :
    (fsExists fs (cwd ++ ["mvnw"]) = true →
      _build_command fs env .maven goal cwd extra =
        .ok ("./mvnw" :: "-e" :: mavenGoalArg goal :: extra))
    ∧ (fsExists fs (cwd ++ ["mvnw"]) = false →
       fsExists fs (cwd ++ ["mvnw.cmd"]) = true →
      _build_command fs env .maven goal cwd extra =
        .ok ("mvnw.cmd" :: "-e" :: mavenGoalArg goal :: extra))
    ∧ (fsExists fs (cwd ++ ["mvnw"]) = false →
       fsExists fs (cwd ++ ["mvnw.cmd"]) = false →
      (∀ mc, env.getenv "MAVEN_CMD" = some mc → mc ≠ "" →
        (fs.strExists mc = true →
          _build_command fs env .maven goal cwd extra =
            .ok (mc :: "-e" :: mavenGoalArg goal :: extra))
        ∧ (fs.strExists mc = false →
          _build_command fs env .maven goal cwd extra =
            .error (.mavenCmdSetButMissing mc)
          ∧ (HErr.mavenCmdSetButMissing mc).status_code = 500))
      ∧ (pyTruthy (env.getenv "MAVEN_CMD") = false →
        ((env.which "mvn").isSome = true →
          _build_command fs env .maven goal cwd extra =
            .ok ("mvn" :: "-e" :: mavenGoalArg goal :: extra))
        ∧ ((env.which "mvn").isSome = false →
          _build_command fs env .maven goal cwd extra = .error .mavenNotFound
          ∧ HErr.mavenNotFound.status_code = 500))) := by
  have hv : _validate_extra_args extra = .ok extra := by
    simp [_validate_extra_args, hargs]
  refine ⟨?_, ?_, ?_⟩
  · intro h1
    cases goal <;> simp [_build_command, hv, h1, mavenGoalArg]
  · intro h1 h2
    cases goal <;> simp [_build_command, hv, h1, h2, mavenGoalArg]
  · intro h1 h2
    constructor
    · intro mc hmc hne
      constructor
      · intro hex
        cases goal <;>
          simp [_build_command, hv, h1, h2, _pick_maven_executable, hmc, hne, hex,
            mavenGoalArg]
      · intro hex
        refine ⟨?_, rfl⟩
        cases goal <;>
          simp [_build_command, hv, h1, h2, _pick_maven_executable, hmc, hne, hex,
            mavenGoalArg]
    · intro htr
      constructor
      · intro hw
        cases hmvn : env.which "mvn" with
        | none => rw [hmvn] at hw; simp at hw
        | some w =>
          cases hmc : env.getenv "MAVEN_CMD" with
          | none =>
            cases goal <;>
              simp [_build_command, hv, h1, h2, _pick_maven_executable, hmc, hmvn,
                mavenGoalArg]
          | some s =>
            have hs : s = "" := by
              rw [hmc] at htr
              simpa [pyTruthy] using htr
            cases goal <;>
              simp [_build_command, hv, h1, h2, _pick_maven_executable, hmc, hs, hmvn,
                mavenGoalArg]
      · intro hw
        have hmvn : env.which "mvn" = none := by
          cases hx : env.which "mvn" with
          | none => rfl
          | some w => rw [hx] at hw; simp at hw
        refine ⟨?_, rfl⟩
        cases hmc : env.getenv "MAVEN_CMD" with
        | none =>
          cases goal <;>
            simp [_build_command, hv, h1, h2, _pick_maven_executable, hmc, hmvn,
              mavenGoalArg]
        | some s =>
          have hs : s = "" := by
            rw [hmc] at htr
            simpa [pyTruthy] using htr
          cases goal <;>
            simp [_build_command, hv, h1, h2, _pick_maven_executable, hmc, hs, hmvn,
              mavenGoalArg]

/-- Witness for C5: with both a `mvnw` wrapper and a system `mvn` available,
the built command starts with the wrapper; and with no wrapper and a
configured-but-missing `MAVEN_CMD`, the build fails with the 500 error. -/
theorem maven_executable_preference_witness :
    _build_command ⟨[(["r", "mvnw"], ""), (["r", "pom.xml"], "")], [], fun _ => false⟩
        ⟨fun _ => none, fun n => if n = "mvn" then some "/usr/bin/mvn" else none⟩
        .maven .test ["r"] [] =
      .ok ["./mvnw", "-e", "test"]
    ∧ (_build_command ⟨[], [], fun _ => false⟩
        ⟨fun n => if n = "MAVEN_CMD" then some "C:/maven/mvn.cmd" else none,
         fun _ => none⟩
        .maven .test ["r"] [] =
      .error (.mavenCmdSetButMissing "C:/maven/mvn.cmd")
    ∧ (HErr.mavenCmdSetButMissing "C:/maven/mvn.cmd").status_code = 500) := by
  constructor
  · exact (maven_executable_preference
      ⟨[(["r", "mvnw"], ""), (["r", "pom.xml"], "")], [], fun _ => false⟩
      ⟨fun _ => none, fun n => if n = "mvn" then some "/usr/bin/mvn" else none⟩
      ["r"] .test [] (by decide)).1 (by rfl)
  · exact (((maven_executable_preference ⟨[], [], fun _ => false⟩
      ⟨fun n => if n = "MAVEN_CMD" then some "C:/maven/mvn.cmd" else none,
       fun _ => none⟩
      ["r"] .test [] (by decide)).2.2 (by rfl) (by rfl)).1 "C:/maven/mvn.cmd"
      (by rfl) (by decide)).2 (by rfl)

theorem pyTailC_suffix (l : List Char) (k : Nat) : pyTailC l k <:+ l :=
  List.drop_suffix _ _

theorem pyTailC_length (l : List Char) (k : Nat) :
    (pyTailC l k).length = min l.length k := by
  simp [pyTailC]
  omega

theorem pyTailC_ne_nil (l : List Char) (k : Nat) (hl : l ≠ []) (hk : 0 < k) :
    pyTailC l k ≠ [] := by
  have hpos : 0 < l.length := List.length_pos.mpr hl
  unfold pyTailC
  rw [Ne, List.drop_eq_nil_iff]
  omega

theorem dropWhileHead_not (p : Char → Bool) (l : List Char) (c : Char)
    (h : (l.dropWhile p).head? = some c) : p c = false := by
  have hd := List.head?_dropWhile_not p l
  rw [h] at hd
  exact hd

theorem stripC_getLast_not_ws (l : List Char) (c : Char)
    (h : (stripC l).getLast? = some c) : isPyWs c = false := by
  unfold stripC at h
  rw [List.getLast?_reverse] at h
  exact dropWhileHead_not _ _ _ h

theorem allWs_of_dropWhile_allWs (p : Char → Bool) (l : List Char)
    (h : ∀ c ∈ l.dropWhile p, p c = true) : ∀ c ∈ l, p c = true := by
  intro c hc
  rw [← List.takeWhile_append_dropWhile p l] at hc
  rcases List.mem_append.mp hc with h1 | h2
  · exact List.mem_takeWhile_imp h1
  · exact h c h2

theorem stripC_eq_nil_iff (l : List Char) :
    stripC l = [] ↔ ∀ c ∈ l, isPyWs c = true := by
  unfold stripC
  constructor
  · intro h
    rw [List.reverse_eq_nil_iff, List.dropWhile_eq_nil_iff] at h
    refine allWs_of_dropWhile_allWs isPyWs l ?_
    intro c hc
    exact h c (List.mem_reverse.mpr hc)
  · intro h
    have h1 : l.dropWhile isPyWs = [] :=
      List.dropWhile_eq_nil_iff.mpr (fun c hc => h c hc)
    simp [h1]

theorem stripC_infix (l : List Char) : stripC l <:+: l := by
  have h1 : stripC l <+: l.dropWhile isPyWs := by
    unfold stripC
    rw [← List.reverse_suffix]
    simp only [List.reverse_reverse]
    exact List.dropWhile_suffix _
  exact h1.isInfix.trans (List.dropWhile_suffix isPyWs).isInfix

theorem isLineBreak_isPyWs (c : Char) (h : isLineBreakC c = true) :
    isPyWs c = true := by
  have hmem : c ∈ lineBreakChars := by
    rw [isLineBreakC, List.contains_eq_any_beq, List.any_eq_true] at h
    obtain ⟨x, hx, hbeq⟩ := h
    exact (beq_iff_eq.mp hbeq) ▸ hx
  have hmem2 : c ∈ pyWsChars := by
    rw [pyWsChars]
    exact List.mem_append.mpr (Or.inr hmem)
  rw [isPyWs, Bool.or_eq_true]
  left
  rw [List.contains_eq_any_beq, List.any_eq_true]
  exact ⟨c, hmem2, beq_self_eq_true c⟩

theorem splitLinesC_ne_nil (cs : List Char) (h : cs ≠ []) : splitLinesC cs ≠ [] := by
  rw [splitLinesC.eq_def]
  split
  · exact absurd rfl h
  · simp
  · split
    · simp
    · split <;> simp

theorem getLast_cons_ne_nil {α : Type} (a : α) (l : List α) (h : l ≠ []) :
    (a :: l).getLast? = l.getLast? := by
  cases l with
  | nil => exact absurd rfl h
  | cons b bs => exact List.getLast?_cons_cons

theorem getLastD_cons_ne_nil {α : Type} (a : α) (l : List α) (d : α) (h : l ≠ []) :
    (a :: l).getLastD d = l.getLastD d := by
  rw [List.getLastD_eq_getLast?, List.getLastD_eq_getLast?, getLast_cons_ne_nil a l h]

theorem splitLinesC_getLastD (n : Nat) : ∀ (cs : List Char), cs.length ≤ n → cs ≠ [] →
    (∀ c, cs.getLast? = some c → isLineBreakC c = false) →
    (splitLinesC cs).getLastD [] ≠ [] := by
  induction n with
  | zero =>
    intro cs hlen hne _
    cases cs with
    | nil => exact absurd rfl hne
    | cons c cs' => simp at hlen
  | succ n ih =>
    intro cs hlen hne hb
    cases cs with
    | nil => exact absurd rfl hne
    | cons c1 cs' =>
      cases cs' with
      | nil =>
        have hb1 : isLineBreakC c1 = false := hb c1 (by simp)
        have hcr : c1 ≠ '\r' := by
          intro hc
          rw [hc] at hb1
          simp [isLineBreakC, lineBreakChars] at hb1
        rw [splitLinesC.eq_def]
        simp [hcr, hb1, splitLinesC]
      | cons c2 cs'' =>
        by_cases hpat : c1 = '\r' ∧ c2 = '\n'
        · obtain ⟨h1, h2⟩ := hpat
          subst h1
          subst h2
          have hcs'' : cs'' ≠ [] := by
            intro he
            subst he
            have := hb '\n' (by simp)
            simp [isLineBreakC, lineBreakChars] at this
          have hsp : splitLinesC ('\r' :: '\n' :: cs'') = [] :: splitLinesC cs'' := by
            rw [splitLinesC.eq_def]
            rfl
          rw [hsp, List.getLastD_cons]
          have hb' : ∀ c, cs''.getLast? = some c → isLineBreakC c = false := by
            intro c hc
            apply hb
            rw [getLast_cons_ne_nil _ _ (by simp), getLast_cons_ne_nil _ _ hcs'']
            exact hc
          have := ih cs'' (by simp at hlen; omega) hcs'' hb'
          rwa [List.getLastD_eq_getLast?] at this ⊢
        · have hb' : ∀ c, (c2 :: cs'').getLast? = some c → isLineBreakC c = false := by
            intro c hc
            apply hb
            rw [getLast_cons_ne_nil _ _ (by simp)]
            exact hc
          have hrec := ih (c2 :: cs'') (by simp at hlen ⊢; omega) (by simp) hb'
          have hsp : splitLinesC (c1 :: c2 :: cs'') =
              if isLineBreakC c1 = true then [] :: splitLinesC (c2 :: cs'') else
                match splitLinesC (c2 :: cs'') with
                | [] => [[c1]]
                | l :: ls => (c1 :: l) :: ls := by
            rw [splitLinesC.eq_def]
            split
            · simp_all
            · rename_i heq
              exfalso
              apply hpat
              injection heq with ha hb
              injection hb with hb _
              exact ⟨ha, hb⟩
            · rename_i c cs hno heq
              injection heq with ha hb2
              subst ha
              subst hb2
              rfl
          rw [hsp]
          by_cases hlb : isLineBreakC c1 = true
          · rw [if_pos hlb, List.getLastD_cons]
            rwa [List.getLastD_eq_getLast?] at hrec ⊢
          · rw [if_neg hlb]
            cases hL : splitLinesC (c2 :: cs'') with
            | nil => simp
            | cons l ls =>
              cases ls with
              | nil => simp
              | cons m ms =>
                rw [hL] at hrec
                rw [List.getLastD_cons, List.getLastD_cons] at hrec ⊢
                exact hrec

theorem joinNlC_cons_cons (l l2 : List Char) (ls : List (List Char)) :
    joinNlC (l :: l2 :: ls) = l ++ '\n' :: joinNlC (l2 :: ls) := by
  rfl

theorem joinNlC_ne_nil (L : List (List Char)) (hL : L ≠ [])
    (hlast : L.getLastD [] ≠ []) : joinNlC L ≠ [] := by
  cases L with
  | nil => exact absurd rfl hL
  | cons l ls =>
    cases ls with
    | nil => simpa [joinNlC] using hlast
    | cons l2 ls2 =>
      rw [joinNlC_cons_cons]
      simp

theorem joinNlC_drop_suffix (L : List (List Char)) (k : Nat) :
    joinNlC (L.drop k) <:+ joinNlC L := by
  induction L generalizing k with
  | nil => simp [joinNlC]
  | cons l ls ih =>
    cases k with
    | zero => exact List.suffix_refl _
    | succ k' =>
      rw [List.drop_succ_cons]
      have h2 : joinNlC ls <:+ joinNlC (l :: ls) := by
        cases ls with
        | nil => simp [joinNlC]
        | cons l2 ls2 =>
          rw [joinNlC_cons_cons]
          exact ⟨l ++ ['\n'], by simp⟩
      exact (ih k').trans h2

theorem getLastD_drop (L : List (List Char)) (k : Nat) (h : L.drop k ≠ []) :
    (L.drop k).getLastD [] = L.getLastD [] := by
  conv_rhs => rw [← List.take_append_drop k L]
  rw [List.getLastD_eq_getLast?, List.getLastD_eq_getLast?,
    List.getLast?_append_of_ne_nil _ h]

theorem summary_ne_nil (combined : List Char) (hne : combined ≠ [])
    (hlast : ∀ c, combined.getLast? = some c → isPyWs c = false) :
    pyTailC (joinNlC (lastNC (splitLinesC combined) 200)) 8000 ≠ [] := by
  have h0 : splitLinesC combined ≠ [] := splitLinesC_ne_nil combined hne
  have hlenpos : 0 < (splitLinesC combined).length := List.length_pos.mpr h0
  have hdrop : lastNC (splitLinesC combined) 200 ≠ [] := by
    unfold lastNC
    rw [Ne, List.drop_eq_nil_iff]
    omega
  have hlb : ∀ c, combined.getLast? = some c → isLineBreakC c = false := by
    intro c hc
    by_contra hx
    have := isLineBreak_isPyWs c (by revert hx; cases isLineBreakC c <;> simp)
    rw [hlast c hc] at this
    exact Bool.false_ne_true this
  have hlast2 : (splitLinesC combined).getLastD [] ≠ [] :=
    splitLinesC_getLastD combined.length combined (Nat.le_refl _) hne hlb
  have hlast3 : (lastNC (splitLinesC combined) 200).getLastD [] ≠ [] := by
    unfold lastNC
    rw [getLastD_drop _ _ hdrop]
    exact hlast2
  have hjoin : joinNlC (lastNC (splitLinesC combined) 200) ≠ [] :=
    joinNlC_ne_nil _ hdrop hlast3
  exact pyTailC_ne_nil _ _ hjoin (by omega)

theorem summaryString_ne_empty (l : List Char) (h : stripC l ≠ []) :
    _tail (String.mk (joinNlC (lastNC (splitLinesC (stripC l)) 200))) 8000 ≠ "" := by
  have hlast : ∀ c, (stripC l).getLast? = some c → isPyWs c = false :=
    fun c hc => stripC_getLast_not_ws l c hc
  have hne := summary_ne_nil (stripC l) h hlast
  intro hcontra
  apply hne
  have hdata := congrArg String.data hcontra
  simpa [_tail] using hdata

/-- C3 counterexample: the claim fails on the code at two concrete completed
executions with nonzero exit code.  With both streams empty the summary is
empty even though the exit code is 1 (the claim demands a non-empty summary);
and with a whitespace-only (hence non-empty) stderr and a non-empty stdout
the summary is drawn from stdout, not from the non-empty stderr. -/
theorem exit_summary_claim_counterexample :
    ((1 : Int) ≠ 0 ∧
      (_run_command ["mvn"] ["r"] 300 (.completed 1 "" "") 5).error_summary = "")
    ∧ ((" " : String) ≠ "" ∧
      (_run_command ["mvn"] ["r"] 300 (.completed 1 "compile error" " ") 5).error_summary =
        "compile error") := by
  refine ⟨⟨by decide, ?_⟩, ⟨by decide, ?_⟩⟩ <;> rfl

/-- C3 amended: for every completed execution, `ok` equals
`returncode == 0`; on exit code 0 the error summary is empty; on nonzero exit
the summary is drawn from stderr when stderr has non-whitespace content, else
from stdout, and it is non-empty whenever the chosen stream has
non-whitespace content (it is empty when both streams are whitespace-only). -/
theorem run_command_ok_error_summary (cmd cwd : List String) (t : Nat) (rc : Int)
    (out err : String) (dur : Nat) :
    (_run_command cmd cwd t (.completed rc out err) dur).ok = (rc == 0)
    ∧ (rc = 0 →
        (_run_command cmd cwd t (.completed rc out err) dur).error_summary = "")
    ∧ (rc ≠ 0 →
        (stripC err.data ≠ [] →
          (_run_command cmd cwd t (.completed rc out err) dur).error_summary =
            _tail (String.mk (joinNlC (lastNC (splitLinesC (stripC err.data)) 200))) 8000
          ∧ (_run_command cmd cwd t (.completed rc out err) dur).error_summary ≠ "")
        ∧ (stripC err.data = [] → stripC out.data ≠ [] →
          (_run_command cmd cwd t (.completed rc out err) dur).error_summary =
            _tail (String.mk (joinNlC (lastNC (splitLinesC (stripC out.data)) 200))) 8000
          ∧ (_run_command cmd cwd t (.completed rc out err) dur).error_summary ≠ "")
        ∧ (stripC err.data = [] → stripC out.data = [] →
          (_run_command cmd cwd t (.completed rc out err) dur).error_summary = "")) := by
  refine ⟨rfl, ?_, ?_⟩
  · intro h0
    subst h0
    rfl
  · intro hrc
    have hb : (rc == 0) = false := by
      rw [beq_eq_false_iff_ne]
      exact hrc
    refine ⟨?_, ?_, ?_⟩
    · intro hse
      have heq : (_run_command cmd cwd t (.completed rc out err) dur).error_summary =
          _tail (String.mk (joinNlC (lastNC (splitLinesC (stripC err.data)) 200))) 8000 := by
        simp [_run_command, _normalize_maven_output, hb, hse]
      exact ⟨heq, heq ▸ summaryString_ne_empty err.data hse⟩
    · intro hse hso
      have heq : (_run_command cmd cwd t (.completed rc out err) dur).error_summary =
          _tail (String.mk (joinNlC (lastNC (splitLinesC (stripC out.data)) 200))) 8000 := by
        simp [_run_command, _normalize_maven_output, hb, hse, hso]
      exact ⟨heq, heq ▸ summaryString_ne_empty out.data hso⟩
    · intro hse hso
      simp [_run_command, _normalize_maven_output, hb, hse, hso, _tail, pyTailC]

/-- Witness for the amended C3: a nonzero exit with stderr content yields
that stderr text as the (non-empty) summary, and a zero exit yields `ok` and
an empty summary. -/
theorem run_command_ok_error_summary_witness :
    (_run_command ["mvn"] ["r"] 300 (.completed 1 "out noise" "ERROR: boom") 5).error_summary =
      "ERROR: boom"
    ∧ (_run_command ["mvn"] ["r"] 300 (.completed 1 "out noise" "ERROR: boom") 5).error_summary ≠ ""
    ∧ (_run_command ["mvn"] ["r"] 300 (.completed 0 "ok" "") 5).error_summary = ""
    ∧ (_run_command ["mvn"] ["r"] 300 (.completed 0 "ok" "") 5).ok = true := by
  have h := (run_command_ok_error_summary ["mvn"] ["r"] 300 1 "out noise" "ERROR: boom" 5).2.2
    (by decide)
  have h1 := h.1 (by decide)
  have h0 := (run_command_ok_error_summary ["mvn"] ["r"] 300 0 "ok" "" 5).2.1 rfl
  have hok := (run_command_ok_error_summary ["mvn"] ["r"] 300 0 "ok" "" 5).1
  refine ⟨?_, h1.2, h0, ?_⟩
  · rw [h1.1]
    rfl
  · rw [hok]
    rfl

theorem tail_of_short (s : String) (k : Nat) (h : s.data.length ≤ k) :
    _tail s k = s := by
  have h0 : s.data.length - k = 0 := Nat.sub_eq_zero_of_le h
  unfold _tail pyTailC
  rw [h0, List.drop_zero]

/-- C6: every timed-out execution reports exit code 124 and `ok = false`,
preserves the partial stdout/stderr captured before termination (as their
20000-character tails), defaults stderr to the `TIMEOUT` marker when the
process produced no stderr, and has a non-empty error summary (falling back
to `TIMEOUT` when nothing was captured at all); the timeout is a structured
`RunResult`, not a raised request error. -/
theorem timeout_result (cmd cwd : List String) (t : Nat)
    (out err : Option String) (dur : Nat) :
    (_run_command cmd cwd t (.timedOut out err) dur).returncode = 124
    ∧ (_run_command cmd cwd t (.timedOut out err) dur).ok = false
    ∧ (_run_command cmd cwd t (.timedOut out err) dur).stdout =
        _tail (pyOrOpt out "") 20000
    ∧ (_run_command cmd cwd t (.timedOut out err) dur).stderr =
        _tail (pyOrOpt err "TIMEOUT") 20000
    ∧ ((err = none ∨ err = some "") →
        (_run_command cmd cwd t (.timedOut out err) dur).stderr = "TIMEOUT")
    ∧ (_run_command cmd cwd t (.timedOut out err) dur).error_summary ≠ ""
    ∧ (out = none → err = none →
        (_run_command cmd cwd t (.timedOut out err) dur).error_summary = "TIMEOUT") := by
  refine ⟨rfl, rfl, rfl, rfl, ?_, ?_, ?_⟩
  · intro h
    have hrw : (_run_command cmd cwd t (.timedOut out err) dur).stderr =
        _tail (pyOrOpt err "TIMEOUT") 20000 := rfl
    have hpo : pyOrOpt (some "") "TIMEOUT" = "TIMEOUT" := by decide
    have hpn : pyOrOpt none "TIMEOUT" = "TIMEOUT" := rfl
    rcases h with h | h <;> subst h <;> rw [hrw]
    · rw [hpn]
      exact tail_of_short _ _ (by decide)
    · rw [hpo]
      exact tail_of_short _ _ (by decide)
  · have hrw : (_run_command cmd cwd t (.timedOut out err) dur).error_summary =
        pyOrStr ((_normalize_maven_output (pyOrOpt out "") (pyOrOpt err "TIMEOUT")).2.2)
          "TIMEOUT" := by
      simp only [_run_command]
    rw [hrw]
    by_cases hs : (_normalize_maven_output (pyOrOpt out "") (pyOrOpt err "TIMEOUT")).2.2 = ""
    · simp [pyOrStr, hs]
    · simp [pyOrStr, hs]
  · intro ho he
    subst ho
    subst he
    have hrw : (_run_command cmd cwd t (.timedOut none none) dur).error_summary =
        pyOrStr ((_normalize_maven_output (pyOrOpt none "") (pyOrOpt none "TIMEOUT")).2.2)
          "TIMEOUT" := by
      simp only [_run_command]
    rw [hrw]
    decide

/-- Witness for C6: a timeout that captured partial stdout and no stderr
keeps the stdout, reports 124 with the `TIMEOUT` stderr marker and a
non-empty summary; with no output at all the summary itself is `TIMEOUT`. -/
theorem timeout_result_witness :
    (_run_command ["gradle"] ["r"] 60 (.timedOut (some "partial log") none) 60000).returncode = 124
    ∧ (_run_command ["gradle"] ["r"] 60 (.timedOut (some "partial log") none) 60000).ok = false
    ∧ (_run_command ["gradle"] ["r"] 60 (.timedOut (some "partial log") none) 60000).stdout =
        "partial log"
    ∧ (_run_command ["gradle"] ["r"] 60 (.timedOut (some "partial log") none) 60000).stderr =
        "TIMEOUT"
    ∧ (_run_command ["gradle"] ["r"] 60 (.timedOut (some "partial log") none) 60000).error_summary ≠ ""
    ∧ (_run_command ["gradle"] ["r"] 60 (.timedOut none none) 1).error_summary = "TIMEOUT" := by
  obtain ⟨h1, h2, h3, h4, h5, h6, _⟩ :=
    timeout_result ["gradle"] ["r"] 60 (some "partial log") none 60000
  obtain ⟨_, _, _, _, _, _, h7⟩ := timeout_result ["gradle"] ["r"] 60 none none 1
  refine ⟨h1, h2, ?_, h5 (Or.inl rfl), h6, h7 rfl rfl⟩
  rw [h3]
  have hpo : pyOrOpt (some "partial log") "" = "partial log" := by decide
  rw [hpo]
  exact tail_of_short _ _ (by decide)

theorem tail_data (s : String) (k : Nat) : (_tail s k).data = pyTailC s.data k :=
  rfl

theorem mk_data (l : List Char) : (String.mk l).data = l :=
  rfl

theorem tail_length_le (s : String) (k : Nat) : (_tail s k).length ≤ k := by
  have h : (_tail s k).length = (pyTailC s.data k).length := rfl
  rw [h, pyTailC_length]
  exact Nat.min_le_right _ _

theorem tail_join_lastN_suffix (L : List (List Char)) (k n : Nat) :
    pyTailC (joinNlC (lastNC L n)) k <:+ joinNlC L :=
  (pyTailC_suffix _ _).trans (joinNlC_drop_suffix L _)

/-- C7: output normalisation truncates to trailing content only: each of the
returned stdout and stderr is a suffix of the corresponding raw stream, of
length at most 20000 characters (the whole stream when shorter); the error
summary has at most 8000 characters, is a suffix of the line-joined content
of the chosen (stripped) stream, is built from at most the trailing 200 of
its lines, and the chosen stripped stream is itself a contiguous part of the
raw stream — never a leading truncation. -/
theorem normalize_output_tail_truncation (out err : String) :
    (_normalize_maven_output out err).1.data <:+ out.data
    ∧ (_normalize_maven_output out err).1.length = min out.length 20000
    ∧ (_normalize_maven_output out err).2.1.data <:+ err.data
    ∧ (_normalize_maven_output out err).2.1.length = min err.length 20000
    ∧ (_normalize_maven_output out err).2.2.length ≤ 8000
    ∧ (_normalize_maven_output out err).2.2.data <:+
        joinNlC (splitLinesC
          (if stripC err.data ≠ [] then stripC err.data else stripC out.data))
    ∧ (lastNC (splitLinesC
          (if stripC err.data ≠ [] then stripC err.data else stripC out.data)) 200).length ≤ 200
    ∧ (if stripC err.data ≠ [] then stripC err.data else stripC out.data) <:+:
        (if stripC err.data ≠ [] then err.data else out.data) := by
  have h1 : (_normalize_maven_output out err).1 = _tail out 20000 := by
    simp only [_normalize_maven_output]
  have h2 : (_normalize_maven_output out err).2.1 = _tail err 20000 := by
    simp only [_normalize_maven_output]
  have h3 : (_normalize_maven_output out err).2.2 =
      _tail (String.mk
        (if (if stripC err.data ≠ [] then stripC err.data else stripC out.data) ≠ []
          then joinNlC (lastNC (splitLinesC
            (if stripC err.data ≠ [] then stripC err.data else stripC out.data)) 200)
          else [])) 8000 := by
    simp only [_normalize_maven_output]
  refine ⟨?_, ?_, ?_, ?_, ?_, ?_, ?_, ?_⟩
  · rw [h1, tail_data]
    exact pyTailC_suffix _ _
  · rw [h1]
    have hl : (_tail out 20000).length = (pyTailC out.data 20000).length := rfl
    rw [hl, pyTailC_length]
    rfl
  · rw [h2, tail_data]
    exact pyTailC_suffix _ _
  · rw [h2]
    have hl : (_tail err 20000).length = (pyTailC err.data 20000).length := rfl
    rw [hl, pyTailC_length]
    rfl
  · rw [h3]
    exact tail_length_le _ _
  · rw [h3, tail_data, mk_data]
    by_cases hc : (if stripC err.data ≠ [] then stripC err.data else stripC out.data) ≠ []
    · rw [if_pos hc]
      exact tail_join_lastN_suffix _ _ _
    · rw [if_neg hc]
      simp [pyTailC]
  · unfold lastNC
    rw [List.length_drop]
    omega
  · by_cases hse : stripC err.data ≠ []
    · rw [if_pos hse, if_pos hse]
      exact stripC_infix err.data
    · rw [if_neg hse, if_neg hse]
      exact stripC_infix out.data

/-- C8: the compile endpoint checks its preconditions before any process
execution: when the resolved project directory does not exist the request
fails with the 404 client error, and when the tool is maven and `pom.xml`
does not exist directly in that directory it fails with the 400 client
error; in both cases the result does not depend on the spawner or on the
tool-locator environment, so no command is built and no process is
spawned. -/
theorem compile_preconditions (fs : FS) (root : List String) (req : CompileRequest)
    (hsafe : root <+: resolvePath root req.project_path) :
    (fsExists fs (resolvePath root req.project_path) = false →
      ∀ env spawn, compile_project fs env root spawn req =
        .error (.projectPathNotFound (resolvePath root req.project_path))
      ∧ (HErr.projectPathNotFound (resolvePath root req.project_path)).status_code = 404)
    ∧ (fsExists fs (resolvePath root req.project_path) = true →
       req.tool = .maven →
       fsExists fs (resolvePath root req.project_path ++ ["pom.xml"]) = false →
      ∀ env spawn, compile_project fs env root spawn req =
        .error (.pomNotFound (resolvePath root req.project_path))
      ∧ (HErr.pomNotFound (resolvePath root req.project_path)).status_code = 400) := by
  have hsj : _safe_join root req.project_path = .ok (resolvePath root req.project_path) := by
    rw [safe_join_eq]
    simp [hsafe]
  constructor
  · intro hfs env spawn
    refine ⟨?_, rfl⟩
    unfold compile_project
    rw [hsj]
    simp [hfs]
  · intro hfs htool hpom env spawn
    refine ⟨?_, rfl⟩
    unfold compile_project
    rw [hsj]
    simp [hfs, htool, hpom]

/-- Witness for C8: a missing project directory yields the 404 error, and a
present directory without `pom.xml` under tool maven yields the 400 error,
each independently of the chosen spawner. -/
theorem compile_preconditions_witness :
    compile_project ⟨[], [["repo"]], fun _ => false⟩ ⟨fun _ => none, fun _ => none⟩
        ["repo"] (fun _ _ _ => (.completed 0 "" "", 0))
        ⟨.maven, .compile, "missing", 300, []⟩ =
      .error (.projectPathNotFound ["repo", "missing"])
    ∧ (HErr.projectPathNotFound ["repo", "missing"]).status_code = 404
    ∧ compile_project ⟨[], [["repo"], ["repo", "mod"]], fun _ => false⟩
        ⟨fun _ => none, fun _ => none⟩
        ["repo"] (fun _ _ _ => (.completed 0 "" "", 0))
        ⟨.maven, .compile, "mod", 300, []⟩ =
      .error (.pomNotFound ["repo", "mod"])
    ∧ (HErr.pomNotFound ["repo", "mod"]).status_code = 400 := by
  have hres1 : resolvePath ["repo"] "missing" = ["repo", "missing"] := by decide
  have h1 := (compile_preconditions ⟨[], [["repo"]], fun _ => false⟩ ["repo"]
    ⟨.maven, .compile, "missing", 300, []⟩ (by rw [hres1]; decide)).1
  have hres2 : resolvePath ["repo"] "mod" = ["repo", "mod"] := by decide
  have h2 := (compile_preconditions ⟨[], [["repo"], ["repo", "mod"]], fun _ => false⟩ ["repo"]
    ⟨.maven, .compile, "mod", 300, []⟩ (by rw [hres2]; decide)).2
  rw [hres1] at h1
  rw [hres2] at h2
  have h1' := h1 (by decide) ⟨fun _ => none, fun _ => none⟩ (fun _ _ _ => (.completed 0 "" "", 0))
  have h2' := h2 (by decide) rfl (by decide) ⟨fun _ => none, fun _ => none⟩
    (fun _ _ _ => (.completed 0 "" "", 0))
  exact ⟨h1'.1, h1'.2, h2'.1, h2'.2⟩

theorem isPrefixOfTrue (l1 l2 : List String) : l1.isPrefixOf l2 = true ↔ l1 <+: l2 :=
  List.isPrefixOf_iff_prefix

theorem traversal_cond_iff (root target : List String) :
    (!(inParents root target) && !(target == root)) = true ↔ ¬ root <+: target := by
  unfold inParents
  by_cases h : root <+: target
  · by_cases he : target = root
    · simp [h, he]
    · have he' : ¬ root = target := fun hh => he hh.symm
      simp [h, he, he', isPrefixOfTrue]
  · have hne : target ≠ root := by
      intro he
      apply h
      rw [he]
    have hpf : root.isPrefixOf target = false := by
      rw [Bool.eq_false_iff]
      intro hx
      exact h ((isPrefixOfTrue root target).mp hx)
    simp [h, hne, hpf]

/-- C9: the file read and list endpoints apply no path-traversal boundary:
`get_file` joins the request path to the repository root with no
canonicalisation call and no containment check and returns the file content
whenever the joined path exists — including `..`-segment and absolute paths
resolving outside the root — and never fails with a traversal error (a
missing file is a 200 body with an error message, not an exception);
`list_files` likewise globs under `root/base_path` unchecked: for every
relative base path the lexical `relative_to` succeeds, so the listing —
escaped entries included — is served with HTTP 200 and no error of any kind
is raised; the uncaught 500 `ValueError` is reachable only when a match
lacks the root prefix lexically, i.e. through an absolute base path outside
the root — never as a traversal rejection. -/
theorem file_endpoints_no_boundary (fs : FS) (root : List String) (path : String) :
    (∀ c, fileContent fs (resolvePath root path) = some c →
      get_file fs root path = .content c)
    ∧ (∀ base_path ext, base_path.data.head? ≠ some '/' →
        ∃ l, list_files fs root base_path ext = .ok l)
    ∧ (∀ base_path ext p,
        fsExists fs (normalizeComponents (joinLex root base_path)) = true →
        p ∈ rglobLex fs (joinLex root base_path) ext →
        ¬ root <+: p →
        list_files fs root base_path ext = .error .valueError
        ∧ HErr.valueError.status_code = 500) := by
  refine ⟨?_, ?_, ?_⟩
  · intro c hc
    have hex : fsExists fs (resolvePath root path) = true := by
      unfold fileContent at hc
      cases hfind : fs.files.find? (fun e => e.1 == resolvePath root path) with
      | none =>
        rw [hfind] at hc
        simp at hc
      | some e =>
        have hpred := List.find?_some hfind
        have hmem := List.mem_of_find?_eq_some hfind
        unfold fsExists
        rw [Bool.or_eq_true]
        left
        rw [List.any_eq_true]
        exact ⟨e, hmem, hpred⟩
    unfold get_file
    simp [hex, hc]
  · intro base_path ext hrel
    have hbase : joinLex root base_path =
        root ++ (splitPath base_path).filter (fun s => !(s == "") && !(s == ".")) := by
      unfold joinLex
      rw [if_neg hrel]
    have hall : (rglobLex fs (joinLex root base_path) ext).all
        (fun q => root.isPrefixOf q) = true := by
      rw [List.all_eq_true]
      intro q hq
      simp only [rglobLex, List.mem_map] at hq
      obtain ⟨e, he, hqe⟩ := hq
      rw [isPrefixOfTrue, ← hqe, hbase, List.append_assoc]
      exact ⟨_, rfl⟩
    by_cases hex : fsExists fs (normalizeComponents (joinLex root base_path)) = true
    · refine ⟨(rglobLex fs (joinLex root base_path) ext).map
        (fun q => String.intercalate "/" (q.drop root.length)), ?_⟩
      unfold list_files
      simp [hex, hall]
    · refine ⟨[], ?_⟩
      have hex2 : fsExists fs (normalizeComponents (joinLex root base_path)) = false := by
        revert hex
        cases fsExists fs (normalizeComponents (joinLex root base_path)) <;> simp
      unfold list_files
      simp [hex2]
  · intro base_path ext p hex hp hnp
    refine ⟨?_, rfl⟩
    have hpf : root.isPrefixOf p = false := by
      rw [Bool.eq_false_iff]
      intro hcontra
      exact hnp ((isPrefixOfTrue root p).mp hcontra)
    have hall : (rglobLex fs (joinLex root base_path) ext).all
        (fun q => root.isPrefixOf q) = false := by
      rw [Bool.eq_false_iff]
      intro hx
      have := List.all_eq_true.mp hx p hp
      rw [hpf] at this
      exact Bool.false_ne_true this
    unfold list_files
    simp [hex, hall]

/-- Witness for C9: with root `/repo`, the request path `../etc/passwd`
resolves to `/etc/passwd`, outside the root, yet `get_file` returns its
content; listing the relative escaping base path `../etc` is served with
HTTP 200 and the escaped entry `../etc/passwd` in the listing (the lexical
`relative_to` succeeds on the uncanonicalised join); only the absolute base
path `/etc` reaches the uncaught 500 `ValueError`. -/
theorem file_endpoints_no_boundary_witness :
    get_file ⟨[(["etc", "passwd"], "root:x:0:0")], [["etc"]], fun _ => false⟩
        ["repo"] "../etc/passwd" =
      .content "root:x:0:0"
    ∧ list_files ⟨[(["etc", "passwd"], "root:x:0:0")], [["etc"]], fun _ => false⟩
        ["repo"] "../etc" "" =
      .ok ["../etc/passwd"]
    ∧ list_files ⟨[(["etc", "passwd"], "root:x:0:0")], [["etc"]], fun _ => false⟩
        ["repo"] "/etc" "" =
      .error .valueError
    ∧ HErr.valueError.status_code = 500 := by
  have h := file_endpoints_no_boundary
    ⟨[(["etc", "passwd"], "root:x:0:0")], [["etc"]], fun _ => false⟩ ["repo"] "../etc/passwd"
  have hres : resolvePath ["repo"] "../etc/passwd" = ["etc", "passwd"] := by decide
  have h1 := h.1 "root:x:0:0" (by rw [hres]; decide)
  have hjoin : joinLex ["repo"] "/etc" = ["etc"] := by decide
  have h3 := h.2.2 "/etc" "" ["etc", "passwd"] (by rw [hjoin]; decide)
    (by rw [hjoin]; decide) (by decide)
  refine ⟨h1, ?_, h3.1, h3.2⟩
  rfl

/-- C10: `write_file` resolves the target and rejects targets outside the
repository root with the 400 traversal error before touching the filesystem;
with `overwrite = false` and an existing target it fails with the 409
conflict error and the target's content is unchanged; when it proceeds it
first creates every missing ancestor of the target's parent directory and
then writes exactly the supplied content. -/
theorem write_file_guarded (fs : FS) (root : List String) (req : WriteFileRequest) :
    (¬ root <+: resolvePath root req.path →
      write_file fs root req = (fs, .error .writeTraversal)
      ∧ HErr.writeTraversal.status_code = 400)
    ∧ (root <+: resolvePath root req.path →
       fsExists fs (resolvePath root req.path) = true → req.overwrite = false →
      write_file fs root req = (fs, .error (.fileAlreadyExists (resolvePath root req.path)))
      ∧ fileContent (write_file fs root req).1 (resolvePath root req.path) =
          fileContent fs (resolvePath root req.path)
      ∧ (HErr.fileAlreadyExists (resolvePath root req.path)).status_code = 409)
    ∧ (root <+: resolvePath root req.path →
       (fsExists fs (resolvePath root req.path) = false ∨ req.overwrite = true) →
      fileContent (write_file fs root req).1 (resolvePath root req.path) = some req.content
      ∧ (∀ q, q <+: (resolvePath root req.path).dropLast →
          (write_file fs root req).1.dirs.contains q = true)
      ∧ (write_file fs root req).2 =
          .ok ⟨true, String.intercalate "/" ((resolvePath root req.path).drop root.length)⟩) := by
  refine ⟨?_, ?_, ?_⟩
  · intro h
    have hcond : (!(inParents root (resolvePath root req.path)) &&
        !((resolvePath root req.path) == root)) = true :=
      (traversal_cond_iff root (resolvePath root req.path)).mpr h
    constructor
    · unfold write_file
      simp [hcond]
    · rfl
  · intro h hfs hov
    have hcond : (!(inParents root (resolvePath root req.path)) &&
        !((resolvePath root req.path) == root)) = false := by
      rw [Bool.eq_false_iff]
      intro hx
      exact (traversal_cond_iff root (resolvePath root req.path)).mp hx h
    have hw : write_file fs root req =
        (fs, .error (.fileAlreadyExists (resolvePath root req.path))) := by
      unfold write_file
      simp [hcond, hfs, hov]
    refine ⟨hw, ?_, rfl⟩
    rw [hw]
  · intro h hdisj
    have hcond : (!(inParents root (resolvePath root req.path)) &&
        !((resolvePath root req.path) == root)) = false := by
      rw [Bool.eq_false_iff]
      intro hx
      exact (traversal_cond_iff root (resolvePath root req.path)).mp hx h
    have hsecond : (fsExists fs (resolvePath root req.path) && !req.overwrite) = false := by
      rcases hdisj with hx | hx <;> simp [hx]
    have hw : write_file fs root req =
        (writeText (mkdirParents fs (resolvePath root req.path).dropLast)
          (resolvePath root req.path) req.content,
         .ok ⟨true, String.intercalate "/" ((resolvePath root req.path).drop root.length)⟩) := by
      unfold write_file
      simp [hcond, hsecond]
    refine ⟨?_, ?_, ?_⟩
    · rw [hw]
      unfold fileContent writeText
      simp
    · intro q hq
      rw [hw]
      have hdirs : (writeText (mkdirParents fs (resolvePath root req.path).dropLast)
          (resolvePath root req.path) req.content).dirs =
          pathAncestors (resolvePath root req.path).dropLast ++ fs.dirs := rfl
      rw [hdirs]
      have hmem : q ∈ pathAncestors (resolvePath root req.path).dropLast := by
        unfold pathAncestors
        rw [List.mem_map]
        refine ⟨q.length, ?_, ?_⟩
        · rw [List.mem_range]
          have := hq.length_le
          omega
        · exact (List.prefix_iff_eq_take.mp hq).symm
      have : q ∈ pathAncestors (resolvePath root req.path).dropLast ++ fs.dirs :=
        List.mem_append.mpr (Or.inl hmem)
      exact List.elem_iff.mpr this
    · rw [hw]

/-- Witness for C10: a `..`-escaping target is rejected with the traversal
error and the filesystem is untouched; an existing target with
`overwrite = false` yields the 409 conflict with the old content intact; and
a fresh nested target gets its parent directory created and exactly the
supplied content written. -/
theorem write_file_guarded_witness :
    (write_file ⟨[], [["repo"]], fun _ => false⟩ ["repo"] ⟨"r", "../evil.txt", "x", true⟩ =
      (⟨[], [["repo"]], fun _ => false⟩, .error .writeTraversal))
    ∧ (write_file ⟨[(["repo", "a.txt"], "old")], [["repo"]], fun _ => false⟩ ["repo"]
        ⟨"r", "a.txt", "new", false⟩ =
      (⟨[(["repo", "a.txt"], "old")], [["repo"]], fun _ => false⟩,
       .error (.fileAlreadyExists ["repo", "a.txt"])))
    ∧ fileContent (write_file ⟨[(["repo", "a.txt"], "old")], [["repo"]], fun _ => false⟩
        ["repo"] ⟨"r", "a.txt", "new", false⟩).1 ["repo", "a.txt"] = some "old"
    ∧ fileContent (write_file ⟨[], [["repo"]], fun _ => false⟩ ["repo"]
        ⟨"r", "sub/new.txt", "hello", true⟩).1 ["repo", "sub", "new.txt"] = some "hello"
    ∧ (write_file ⟨[], [["repo"]], fun _ => false⟩ ["repo"]
        ⟨"r", "sub/new.txt", "hello", true⟩).1.dirs.contains ["repo", "sub"] = true := by
  have hres1 : resolvePath ["repo"] "../evil.txt" = ["evil.txt"] := by decide
  have h1 := (write_file_guarded ⟨[], [["repo"]], fun _ => false⟩ ["repo"]
    ⟨"r", "../evil.txt", "x", true⟩).1 (by rw [hres1]; decide)
  have hres2 : resolvePath ["repo"] "a.txt" = ["repo", "a.txt"] := by decide
  have h2 := (write_file_guarded ⟨[(["repo", "a.txt"], "old")], [["repo"]], fun _ => false⟩
    ["repo"] ⟨"r", "a.txt", "new", false⟩).2.1 (by rw [hres2]; decide)
    (by rw [hres2]; decide) rfl
  rw [hres2] at h2
  have hold : fileContent ⟨[(["repo", "a.txt"], "old")], [["repo"]], fun _ => false⟩
      ["repo", "a.txt"] = some "old" := by decide
  have hres3 : resolvePath ["repo"] "sub/new.txt" = ["repo", "sub", "new.txt"] := by decide
  have h3 := (write_file_guarded ⟨[], [["repo"]], fun _ => false⟩ ["repo"]
    ⟨"r", "sub/new.txt", "hello", true⟩).2.2 (by rw [hres3]; decide) (Or.inr rfl)
  rw [hres3] at h3
  exact ⟨h1.1, h2.1, h2.2.1.trans hold, h3.1, h3.2.1 ["repo", "sub"] (by decide)⟩
